import Mathlib

/-!
Shallow embedding of the recurring-meeting-optimizer repository
(src/canceller.py, src/calendar_service.py, src/docs_service.py).

Text is modelled as `List Char`; Python string helpers (`strip`, `lower`,
`rstrip`, `startswith`) are embedded as executable functions on `List Char`.
-/

/-! ## Python string primitives -/

/-- Python `str.isspace` on the ASCII whitespace characters stripped by
`str.strip()`. -/
def pyIsSpace (c : Char) : Bool :=
  c == ' ' || c == '\t' || c == '\n' || c == '\x0d' ||
  c == '\x0b' || c == '\x0c'

/-- Leading-whitespace removal, the left half of Python `str.strip()`. -/
def pyLstrip (l : List Char) : List Char :=
  l.dropWhile pyIsSpace

/-- Trailing-whitespace removal, the right half of Python `str.strip()`. -/
def pyRstrip (l : List Char) : List Char :=
  (l.reverse.dropWhile pyIsSpace).reverse

/-- Python `str.strip()`: remove whitespace from both ends. -/
def pyStrip (l : List Char) : List Char :=
  pyRstrip (pyLstrip l)

/-- Python `str.lower()` restricted to ASCII letters (the only letters the
embedded literals contain). -/
def pyLower (l : List Char) : List Char :=
  l.map fun c => if 'A' ≤ c ∧ c ≤ 'Z' then Char.ofNat (c.toNat + 32) else c

/-! ## canceller.py / calendar_service.py: the cancellation note and
`cancel_event_occurrence` -/

/-- `canceller.CANCELLATION_NOTE` (canceller.py line 25). -/
def CANCELLATION_NOTE : List Char :=
  "Meeting canceled since there are no topics to be discussed today".toList

/-- The description written by the annotate step of
`calendar_service.cancel_event_occurrence` (line 126):
`f"{note}\n\n{existing_desc}".strip()`. -/
def new_description (note existing : List Char) : List Char :=
  pyStrip (note ++ '\n' :: '\n' :: existing)

/-- The description-update function of the annotate step, as a pure function
on descriptions: prepend the note (via `new_description`) unless the
description already starts with the note (the idempotency guard of
calendar_service.py lines 124-131). -/
def annotate_if_needed (note d : List Char) : List Char :=
  if note.isPrefixOf d then d else new_description note d

/-- One calendar API mutation attempted by `cancel_event_occurrence`:
a `events().patch` carrying the new description, or a `events().delete`. -/
inductive CalCall where
  | patchCall (desc : List Char)
  | deleteCall
deriving DecidableEq, Repr

/-- Outcome of one run of `cancel_event_occurrence` against collaborators
whose success/failure is fixed in advance: the calls attempted in order,
whether the function returned normally (no exception propagated), and the
event's stored description afterwards. -/
structure CancelOutcome where
  calls : List CalCall
  ok : Bool
  finalDesc : List Char
deriving DecidableEq, Repr

/-- `calendar_service.cancel_event_occurrence` (lines 116-149).
`desc0` is the event's `description` field (`none` for a missing field or a
`None` value, which `event.get('description', '') or ''` turns into `''`).
`patchOk` / `deleteOk` say whether the patch / delete API call succeeds; a
failing call raises, leaves the calendar state unchanged, and the exception
propagates (the delete's `except` clause logs and re-raises). -/
def cancel_event_occurrence (desc0 : Option (List Char)) (note : List Char)
    (patchOk deleteOk : Bool) : CancelOutcome :=
  let existing := desc0.getD []
  if note.isPrefixOf existing then
    -- idempotency guard: skip the patch, go straight to delete
    if deleteOk then ⟨[.deleteCall], true, existing⟩
    else ⟨[.deleteCall], false, existing⟩
  else
    let newDesc := new_description note existing
    if patchOk then
      if deleteOk then ⟨[.patchCall newDesc, .deleteCall], true, newDesc⟩
      else ⟨[.patchCall newDesc, .deleteCall], false, newDesc⟩
    else ⟨[.patchCall newDesc], false, existing⟩

/-! ## Helper lemmas about the string primitives -/

theorem pyLstrip_cons_of_not_space {c : Char} (h : pyIsSpace c = false)
    (t : List Char) : pyLstrip (c :: t) = c :: t := by
  simp [pyLstrip, List.dropWhile_cons, h]

theorem pyRstrip_append_of_last_not_space {c : Char} (h : pyIsSpace c = false)
    (a x : List Char) :
    pyRstrip ((a ++ [c]) ++ x) = (a ++ [c]) ++ pyRstrip x := by
  unfold pyRstrip
  rw [List.reverse_append, List.reverse_append]
  rw [List.dropWhile_append]
  by_cases hx : (x.reverse.dropWhile pyIsSpace).isEmpty
  · rw [if_pos hx]
    simp only [List.isEmpty_iff] at hx
    rw [hx]
    simp [List.dropWhile_cons, h]
  · rw [if_neg hx]
    simp

theorem pyStrip_note_append {note : List Char} (hne : note ≠ [])
    (hhead : ∀ c t, note = c :: t → pyIsSpace c = false)
    (hlast : ∀ a c, note = a ++ [c] → pyIsSpace c = false)
    (x : List Char) :
    pyStrip (note ++ x) = note ++ pyRstrip x := by
  obtain ⟨c, t, rfl⟩ : ∃ c t, note = c :: t := by
    cases note with
    | nil => exact absurd rfl hne
    | cons c t => exact ⟨c, t, rfl⟩
  obtain ⟨a, d, hcd⟩ : ∃ a d, c :: t = a ++ [d] := by
    refine ⟨(c :: t).dropLast, (c :: t).getLast (by simp), ?_⟩
    exact (List.dropLast_append_getLast (by simp)).symm
  unfold pyStrip
  rw [List.cons_append, pyLstrip_cons_of_not_space (hhead c t rfl), ← List.cons_append, hcd]
  exact pyRstrip_append_of_last_not_space (hlast a d hcd) a x

/-- Every character of the cancellation note is non-whitespace at the ends:
first character `M`, last character `y`. -/
theorem cancellation_note_ends : (∀ c t, CANCELLATION_NOTE = c :: t → pyIsSpace c = false) ∧
    (∀ a c, CANCELLATION_NOTE = a ++ [c] → pyIsSpace c = false) := by
  constructor
  · intro c t h
    have hc : c = 'M' := by
      have := congrArg (fun l => l.head?) h
      simpa [CANCELLATION_NOTE] using this.symm
    rw [hc]; decide
  · intro a c h
    have hc : c = 'y' := by
      have h2 : CANCELLATION_NOTE.getLast? = some 'y' := by decide
      rw [h] at h2
      have h1 : (a ++ [c]).getLast? = some c := by simp
      rw [h1] at h2
      exact Option.some_inj.mp h2
    rw [hc]; decide

/-- Characterisation of the written description: the note survives the
`strip` intact, followed by the separator-and-description with trailing
whitespace removed. -/
theorem new_description_eq (d : List Char) :
    new_description CANCELLATION_NOTE d =
      CANCELLATION_NOTE ++ pyRstrip ('\n' :: '\n' :: d) := by
  unfold new_description
  exact pyStrip_note_append (by decide) cancellation_note_ends.1 cancellation_note_ends.2 _

theorem isPrefixOf_append_self (a b : List Char) : a.isPrefixOf (a ++ b) = true := by
  simp [List.isPrefixOf_iff_prefix]

/-- After the annotate step, the description starts with the note. -/
theorem annotate_starts_with_note (d : List Char) :
    CANCELLATION_NOTE.isPrefixOf (annotate_if_needed CANCELLATION_NOTE d) = true := by
  unfold annotate_if_needed
  by_cases h : CANCELLATION_NOTE.isPrefixOf d
  · simp [h]
  · simp only [h]
    rw [if_neg (by simp [h]), new_description_eq]
    exact isPrefixOf_append_self _ _

/-! ## Claims about the Occurrence Canceller (C3, C4, C8) -/

/-- Claim C3: the annotate-if-needed description update of the Occurrence
Canceller is idempotent — for every description `d` and the fixed
cancellation note, applying the update twice yields the same description as
applying it once. -/
theorem claim3_annotate_if_needed_idempotent (d : List Char) :
    annotate_if_needed CANCELLATION_NOTE (annotate_if_needed CANCELLATION_NOTE d) =
      annotate_if_needed CANCELLATION_NOTE d := by
  have h := annotate_starts_with_note d
  generalize annotate_if_needed CANCELLATION_NOTE d = x at h ⊢
  unfold annotate_if_needed
  simp [h]

/-- Claim C4: `cancel_event_occurrence` performs annotate then remove in
order.  If the annotate (patch) call fails, the delete call is never
attempted, the error propagates, and the event description is untouched;
if the description already starts with the note, the patch is attempted
zero times and the delete exactly once. -/
theorem claim4_cancel_event_occurrence_order (desc0 : Option (List Char))
    (patchOk deleteOk : Bool) :
    (CANCELLATION_NOTE.isPrefixOf (desc0.getD []) = false → patchOk = false →
      (cancel_event_occurrence desc0 CANCELLATION_NOTE patchOk deleteOk).calls =
        [CalCall.patchCall (new_description CANCELLATION_NOTE (desc0.getD []))] ∧
      (cancel_event_occurrence desc0 CANCELLATION_NOTE patchOk deleteOk).ok = false ∧
      (cancel_event_occurrence desc0 CANCELLATION_NOTE patchOk deleteOk).finalDesc =
        desc0.getD []) ∧
    (CANCELLATION_NOTE.isPrefixOf (desc0.getD []) = true →
      (cancel_event_occurrence desc0 CANCELLATION_NOTE patchOk deleteOk).calls =
        [CalCall.deleteCall]) := by
  constructor
  · intro h hp
    subst hp
    simp [cancel_event_occurrence, h]
  · intro h
    unfold cancel_event_occurrence
    simp only [h]
    by_cases hd : deleteOk <;> simp [hd]

/-- Witness for claim C4 at concrete inputs: a failing patch on description
`"x"`, and a re-invocation on a description already carrying the note. -/
theorem claim4_witness :
    ((cancel_event_occurrence (some ['x']) CANCELLATION_NOTE false true).calls =
        [CalCall.patchCall (new_description CANCELLATION_NOTE ['x'])] ∧
      (cancel_event_occurrence (some ['x']) CANCELLATION_NOTE false true).ok = false ∧
      (cancel_event_occurrence (some ['x']) CANCELLATION_NOTE false true).finalDesc = ['x']) ∧
    (cancel_event_occurrence (some CANCELLATION_NOTE) CANCELLATION_NOTE true true).calls =
      [CalCall.deleteCall] := by
  constructor
  · exact (claim4_cancel_event_occurrence_order (some ['x']) false true).1 (by decide) rfl
  · exact (claim4_cancel_event_occurrence_order (some CANCELLATION_NOTE) true true).2 (by decide)

/-- Claim C8 as stated is false at the empty description: the written
description is the bare note (the `strip` removed the blank-line
separator), not the note followed by a blank line. -/
theorem claim8_counterexample :
    new_description CANCELLATION_NOTE [] = CANCELLATION_NOTE ∧
    CANCELLATION_NOTE ≠ CANCELLATION_NOTE ++ '\n' :: '\n' :: ([] : List Char) := by
  exact ⟨by decide, by decide⟩

/-- Claim C8 (amended): the written description is the note, a blank line
and the prior description concatenated, with trailing whitespace then
stripped from the result; in particular for a prior description ending in a
non-whitespace character it is exactly the note, a blank line and the
description verbatim, while an empty or all-whitespace description yields
the bare note. -/
theorem claim8_new_description (d : List Char) :
    new_description CANCELLATION_NOTE d =
      CANCELLATION_NOTE ++ pyRstrip ('\n' :: '\n' :: d) ∧
    (∀ a c, d = a ++ [c] → pyIsSpace c = false →
      new_description CANCELLATION_NOTE d =
        CANCELLATION_NOTE ++ '\n' :: '\n' :: d) := by
  refine ⟨new_description_eq d, ?_⟩
  intro a c hd hc
  subst hd
  rw [new_description_eq]
  have h1 : '\n' :: '\n' :: (a ++ [c]) = (('\n' :: '\n' :: a) ++ [c]) ++ [] := by simp
  rw [h1, pyRstrip_append_of_last_not_space hc]
  simp [pyRstrip]

/-- Witness for claim C8 at the one-character description `"x"`. -/
theorem claim8_witness :
    new_description CANCELLATION_NOTE ['x'] =
      CANCELLATION_NOTE ++ '\n' :: '\n' :: ['x'] := by
  exact (claim8_new_description ['x']).2 [] 'x' rfl (by decide)

/-! ## docs_service.py: date formatting -/

/-- A calendar date as Python's `datetime.date` holds it (validity of the
fields is stated as hypotheses where a claim needs it; Python accepts years
1-9999, months 1-12). -/
structure PyDate where
  year : Nat
  month : Nat
  day : Nat
deriving DecidableEq, Repr

/-- C-locale `strftime('%b')`: the three-letter month abbreviation. -/
def monthAbbrev : Nat → List Char
  | 1 => "Jan".toList
  | 2 => "Feb".toList
  | 3 => "Mar".toList
  | 4 => "Apr".toList
  | 5 => "May".toList
  | 6 => "Jun".toList
  | 7 => "Jul".toList
  | 8 => "Aug".toList
  | 9 => "Sep".toList
  | 10 => "Oct".toList
  | 11 => "Nov".toList
  | 12 => "Dec".toList
  | _ => []

/-- Decimal digits of `n`, most significant first, with explicit fuel so the
kernel can evaluate it (`fuel ≥ n` suffices); `[]` for `n = 0`. -/
def decDigitsAux : Nat → Nat → List Char
  | 0, _ => []
  | _ + 1, 0 => []
  | fuel + 1, n + 1 =>
    decDigitsAux fuel ((n + 1) / 10) ++ [Nat.digitChar ((n + 1) % 10)]

/-- Python `str(n)` / f-string rendering of a natural number in decimal. -/
def natDecimal (n : Nat) : List Char :=
  if n = 0 then ['0'] else decDigitsAux n n

/-- `docs_service.build_today_date_prefix` (lines 120-123):
`f"{today.strftime('%b')} {today.day}, {today.year}"`. -/
def buildTodayDatePrefix (d : PyDate) : List Char :=
  monthAbbrev d.month ++ ' ' :: (natDecimal d.day ++ ',' :: ' ' :: natDecimal d.year)

/-! ## docs_service.py: document model -/

/-- One entry of a paragraph's `elements` list, keyed by which of the four
recognised keys it carries (`textRun`, `dateElement`, `richLink`, `person`);
`unrecognised` covers entries with none of them. -/
inductive InlineElem where
  | textRun (content : List Char)
  | dateElement (displayText : List Char)
  | richLink (title : List Char)
  | person (name : List Char)
  | unrecognised
deriving DecidableEq, Repr

/-- A `paragraph` value: its `elements` list and the
`paragraphStyle.namedStyleType` string (`none` when the style or the field
is absent, which the code defaults to `NORMAL_TEXT`). -/
structure Paragraph where
  elements : List InlineElem
  namedStyleType : Option String
deriving DecidableEq, Repr

/-- One entry of `body.content`: a paragraph, or anything else
(`sectionBreak`, `table`, ...) which the scan skips. -/
inductive DocElement where
  | nonParagraph
  | paragraph (p : Paragraph)
deriving DecidableEq, Repr

/-- `docs_service._get_paragraph_text` (lines 126-149): concatenate the
visible text of the recognised inline element kinds, in order, then
`strip()` the result. -/
def get_paragraph_text (p : Paragraph) : List Char :=
  pyStrip (p.elements.foldr (fun e acc =>
    (match e with
     | .textRun c => c
     | .dateElement t => t
     | .richLink t => t
     | .person n => n
     | .unrecognised => []) ++ acc) [])

/-- The `_HEADING_LEVELS` table of docs_service.py (lines 52-62) as a
lookup with default 99 (`dict.get(style, 99)`). -/
def headingLevelOfStyle (s : String) : Nat :=
  if s = "TITLE" then 0
  else if s = "HEADING_1" then 1
  else if s = "HEADING_2" then 2
  else if s = "HEADING_3" then 3
  else if s = "HEADING_4" then 4
  else if s = "HEADING_5" then 5
  else if s = "HEADING_6" then 6
  else if s = "SUBTITLE" then 7
  else if s = "NORMAL_TEXT" then 99
  else 99

/-- `docs_service._heading_level` (lines 152-155). -/
def heading_level (p : Paragraph) : Nat :=
  headingLevelOfStyle (p.namedStyleType.getD "NORMAL_TEXT")

/-! ## docs_service.py: the section-locator state machine -/

/-- `docs_service._MAX_CONTENT_ELEMENTS` (line 38). -/
def MAX_CONTENT_ELEMENTS : Nat := 10000

/-- ASCII decimal digit, as matched by `\d` of `_DATE_PREFIX_RE` on the
ASCII texts involved. -/
def isDigitChar (c : Char) : Bool := '0' ≤ c && c ≤ '9'

/-- Tail of `_DATE_PREFIX_RE` after the day digits: `, \d{4}`. -/
def dateTailMatch : List Char → Bool
  | ',' :: ' ' :: y1 :: y2 :: y3 :: y4 :: _ =>
    isDigitChar y1 && isDigitChar y2 && isDigitChar y3 && isDigitChar y4
  | _ => false

/-- The `\d{1,2}, \d{4}` part of `_DATE_PREFIX_RE`: one or two day digits
then the tail (the regex alternative orders are equivalent here because a
digit is not a comma). -/
def dateDayMatch : List Char → Bool
  | d1 :: rest =>
    isDigitChar d1 &&
      (dateTailMatch rest ||
        (match rest with
         | d2 :: t => isDigitChar d2 && dateTailMatch t
         | [] => false))
  | [] => false

/-- `docs_service._DATE_PREFIX_RE.match` (line 41): anchored match of
`[A-Z][a-z]{2} \d{1,2}, \d{4}` at the start of the text. -/
def datePrefixMatch : List Char → Bool
  | c0 :: c1 :: c2 :: ' ' :: rest =>
    ('A' ≤ c0 && c0 ≤ 'Z') && ('a' ≤ c1 && c1 ≤ 'z') && ('a' ≤ c2 && c2 ≤ 'z') &&
      dateDayMatch rest
  | _ => false

/-- Python `text.lower().rstrip(':')`: remove every trailing colon. -/
def rstripColons (l : List Char) : List Char :=
  (l.reverse.dropWhile (fun c => c == ':')).reverse

/-- Membership in the tuple `('topics', 'topic')` (line 223). -/
def isTopicsToken (t : List Char) : Bool :=
  t == "topics".toList || t == "topic".toList

/-- `docs_service._END_SECTION_NAMES` (lines 45-48). -/
def END_SECTION_NAMES : List (List Char) :=
  ["notes".toList, "action items".toList, "action item".toList,
   "next steps".toList, "next step".toList, "attendees".toList,
   "attendees:".toList, "agenda".toList, "resources".toList,
   "follow-up".toList, "follow up".toList]

/-- The three states of the locator (lines 178-183), with the recorded
`date_heading_level` carried by the two later states. -/
inductive ScanState where
  | searchingDate
  | searchingTopics (dateLevel : Nat)
  | checkingContent (dateLevel : Nat)
deriving DecidableEq, Repr

/-- Result of processing one `body.content` element: an early `return`
with a verdict, or the next state. -/
inductive StepRes where
  | done (b : Bool)
  | next (st : ScanState)
deriving DecidableEq, Repr

/-- One iteration of the `for element in content` loop of
`has_topics_for_today` (lines 196-245), minus the element-count bound. -/
def stepElement (datePref : List Char) (st : ScanState) (e : DocElement) : StepRes :=
  match e with
  | .nonParagraph => .next st
  | .paragraph p =>
    let text := get_paragraph_text p
    let level := heading_level p
    let isHeading := level < 99
    match st with
    | .searchingDate =>
      if isHeading ∧ datePref.isPrefixOf text then .next (.searchingTopics level)
      else .next .searchingDate
    | .searchingTopics dl =>
      if isHeading ∧ level < dl then .done false
      else if isHeading ∧ level = dl ∧ datePrefixMatch text then .done false
      else if isTopicsToken (rstripColons (pyLower text)) then .next (.checkingContent dl)
      else .next (.searchingTopics dl)
    | .checkingContent dl =>
      if isHeading ∧ level < dl then .done false
      else if isHeading ∧ level = dl ∧ datePrefixMatch text then .done false
      else if pyLower text ∈ END_SECTION_NAMES then .done false
      else if text ≠ [] then .done true
      else .next (.checkingContent dl)

/-- The scan loop of `has_topics_for_today` (lines 185-259): `n` is the
number of elements already processed; the element-count guard
(`elements_processed > _MAX_CONTENT_ELEMENTS → break`) and every
fall-through path yield `False`. -/
def scanLoop (datePref : List Char) : List DocElement → Nat → ScanState → Bool
  | [], _, _ => false
  | e :: rest, n, st =>
    if MAX_CONTENT_ELEMENTS < n + 1 then false
    else
      match stepElement datePref st e with
      | .done b => b
      | .next st2 => scanLoop datePref rest (n + 1) st2

/-- `docs_service.has_topics_for_today` (lines 158-259). -/
def has_topics_for_today (content : List DocElement) (today : PyDate) : Bool :=
  scanLoop (buildTodayDatePrefix today) content 0 .searchingDate

/-! ## Lemmas about decimal rendering -/

theorem decDigitsAux_zero (f : Nat) : decDigitsAux f 0 = [] := by
  cases f <;> rfl

theorem decDigitsAux_length_le :
    ∀ fuel n k, n < 10 ^ k → (decDigitsAux fuel n).length ≤ k := by
  intro fuel
  induction fuel with
  | zero => intro n k _; simp [decDigitsAux]
  | succ f ih =>
    intro n k h
    cases n with
    | zero => simp [decDigitsAux]
    | succ m =>
      cases k with
      | zero => rw [pow_zero] at h; omega
      | succ k =>
        simp only [decDigitsAux, List.length_append, List.length_cons,
          List.length_nil]
        have hdiv : (m + 1) / 10 < 10 ^ k := by
          rw [Nat.div_lt_iff_lt_mul (by norm_num)]
          calc m + 1 < 10 ^ (k + 1) := h
            _ = 10 ^ k * 10 := by ring
        have := ih ((m + 1) / 10) k hdiv
        omega

theorem decDigitsAux_length (k : Nat) :
    ∀ fuel n, 10 ^ k ≤ n → n < 10 ^ (k + 1) → n ≤ fuel →
      (decDigitsAux fuel n).length = k + 1 := by
  induction k with
  | zero =>
    intro fuel n h1 h2 h3
    rw [pow_zero] at h1
    rw [pow_one] at h2
    obtain ⟨f, rfl⟩ : ∃ f, fuel = f + 1 := ⟨fuel - 1, by omega⟩
    obtain ⟨m, rfl⟩ : ∃ m, n = m + 1 := ⟨n - 1, by omega⟩
    simp only [decDigitsAux]
    have hdiv : (m + 1) / 10 = 0 := by omega
    rw [hdiv, decDigitsAux_zero]
    rfl
  | succ k ih =>
    intro fuel n h1 h2 h3
    have hpos : 1 ≤ n := le_trans (Nat.one_le_pow _ _ (by norm_num)) h1
    obtain ⟨f, rfl⟩ : ∃ f, fuel = f + 1 := ⟨fuel - 1, by omega⟩
    obtain ⟨m, rfl⟩ : ∃ m, n = m + 1 := ⟨n - 1, by omega⟩
    simp only [decDigitsAux, List.length_append, List.length_cons, List.length_nil]
    have hd1 : 10 ^ k ≤ (m + 1) / 10 := by
      rw [Nat.le_div_iff_mul_le (by norm_num)]
      calc 10 ^ k * 10 = 10 ^ (k + 1) := by ring
        _ ≤ m + 1 := h1
    have hd2 : (m + 1) / 10 < 10 ^ (k + 1) := by
      rw [Nat.div_lt_iff_lt_mul (by norm_num)]
      calc m + 1 < 10 ^ (k + 1 + 1) := h2
        _ = 10 ^ (k + 1) * 10 := by ring
    have hd3 : (m + 1) / 10 ≤ f := by
      have := Nat.div_lt_self (Nat.succ_pos m) (by norm_num : 1 < 10)
      omega
    rw [ih f ((m + 1) / 10) hd1 hd2 hd3]

/-! ## Claims about date formatting (C9) -/

/-- Claim C9 as stated ("four-digit year" for every date) is false at the
valid Python date 0999-02-25: the year field of the built heading is the
three digits `999`. -/
theorem claim9_counterexample :
    buildTodayDatePrefix ⟨999, 2, 25⟩ = "Feb 25, 999".toList ∧
    (natDecimal 999).length ≠ 4 := by
  exact ⟨by decide, by decide⟩

/-- Claim C9 (amended): for every valid Python date the built heading is
the three-letter month abbreviation, a space, the day-of-month rendered
without zero-padding (no leading zero), a comma, a space, and the year's
decimal digits without padding — which are four digits exactly when the
year is at least 1000 (Python dates end at year 9999). -/
theorem claim9_date_format (y mo da : Nat)
    (hm1 : 1 ≤ mo) (hm2 : mo ≤ 12) (hd1 : 1 ≤ da) (hd2 : da ≤ 31)
    (hy1 : 1 ≤ y) (hy2 : y ≤ 9999) :
    buildTodayDatePrefix ⟨y, mo, da⟩ =
      monthAbbrev mo ++ ' ' :: (natDecimal da ++ ',' :: ' ' :: natDecimal y) ∧
    (monthAbbrev mo).length = 3 ∧
    (natDecimal da).head? ≠ some '0' ∧
    ((natDecimal y).length = 4 ↔ 1000 ≤ y) := by
  refine ⟨rfl, ?_, ?_, ?_, ?_⟩
  · interval_cases mo <;> decide
  · interval_cases da <;> decide
  · intro h4
    by_contra hlt
    have hy3 : y < 10 ^ 3 := by norm_num; omega
    have hle := decDigitsAux_length_le y y 3 hy3
    have hnd : (natDecimal y).length ≤ 3 := by
      unfold natDecimal
      rw [if_neg (by omega)]
      exact hle
    omega
  · intro h1000
    unfold natDecimal
    rw [if_neg (by omega)]
    have g1 : 10 ^ 3 ≤ y := by norm_num; omega
    have g2 : y < 10 ^ (3 + 1) := by norm_num; omega
    exact decDigitsAux_length 3 y y g1 g2 le_rfl

/-- Witness for claim C9 at the date 2026-02-25. -/
theorem claim9_witness :
    buildTodayDatePrefix ⟨2026, 2, 25⟩ =
      monthAbbrev 2 ++ ' ' :: (natDecimal 25 ++ ',' :: ' ' :: natDecimal 2026) ∧
    (monthAbbrev 2).length = 3 ∧
    (natDecimal 25).head? ≠ some '0' ∧
    ((natDecimal 2026).length = 4 ↔ 1000 ≤ 2026) := by
  exact claim9_date_format 2026 2 25 (by decide) (by decide) (by decide)
    (by decide) (by decide) (by decide)

/-! ## Claims about the section-locator state machine (C5, C6, C7) -/

/-- Modelled from the spec's words, for comparison with the code: strip a
single trailing colon ("with a single trailing colon stripped"). -/
def specStripOneColon (l : List Char) : List Char :=
  if l.getLast? = some ':' then l.dropLast else l

/-- Claim C5 as stated is false: on the block `"Topics::"` the machine in
SEARCHING_TOPICS moves to CHECKING_CONTENT (the code strips every trailing
colon), yet the text with only a single trailing colon stripped equals
neither `topics` nor `topic`. -/
theorem claim5_counterexample :
    stepElement (buildTodayDatePrefix ⟨2026, 2, 25⟩) (.searchingTopics 2)
        (.paragraph ⟨[.textRun "Topics::".toList], none⟩) =
      .next (.checkingContent 2) ∧
    specStripOneColon (pyLower (get_paragraph_text ⟨[.textRun "Topics::".toList], none⟩)) ≠
      "topics".toList ∧
    specStripOneColon (pyLower (get_paragraph_text ⟨[.textRun "Topics::".toList], none⟩)) ≠
      "topic".toList := by
  exact ⟨by decide, by decide, by decide⟩

/-- Claim C5 (amended): in SEARCHING_TOPICS the machine moves to
CHECKING_CONTENT exactly when the block does not first terminate the scan
as a section boundary (senior heading, or same-level heading with
date-pattern text) and its flattened text, case-insensitively and with all
trailing colons stripped, equals `topics` or `topic` — whether or not the
block is a heading. -/
theorem claim5_topics_transition (datePref : List Char) (dl : Nat) (p : Paragraph) :
    stepElement datePref (.searchingTopics dl) (.paragraph p) =
        .next (.checkingContent dl) ↔
      (¬(heading_level p < 99 ∧ heading_level p < dl) ∧
       ¬(heading_level p < 99 ∧ heading_level p = dl ∧
          datePrefixMatch (get_paragraph_text p) = true) ∧
       isTopicsToken (rstripColons (pyLower (get_paragraph_text p))) = true) := by
  simp only [stepElement]
  by_cases h1 : heading_level p < 99 ∧ heading_level p < dl
  · simp [h1]
  · rw [if_neg h1]
    by_cases h2 : heading_level p < 99 ∧ heading_level p = dl ∧
        datePrefixMatch (get_paragraph_text p) = true
    · rw [if_pos (by tauto)]
      constructor
      · intro hx
        exact StepRes.noConfusion hx
      · intro hx
        exact absurd h2 hx.2.1
    · rw [if_neg (by tauto)]
      by_cases h3 : isTopicsToken (rstripColons (pyLower (get_paragraph_text p))) = true
      · simp [h1, h2, h3]
      · simp [h1, h2, h3]

/-- Witness for claim C5: the non-heading block `"Topics:"` moves the
machine from SEARCHING_TOPICS to CHECKING_CONTENT. -/
theorem claim5_witness :
    stepElement (buildTodayDatePrefix ⟨2026, 2, 25⟩) (.searchingTopics 2)
        (.paragraph ⟨[.textRun "Topics:".toList], none⟩) =
      .next (.checkingContent 2) := by
  exact (claim5_topics_transition (buildTodayDatePrefix ⟨2026, 2, 25⟩) 2
    ⟨[.textRun "Topics:".toList], none⟩).mpr (by decide)

/-- Claim C6 as stated is false: in CHECKING_CONTENT a heading at the
recorded date level whose text is `"Notes"` — which does not match the
date-prefix pattern — still terminates the scan with NOT_FOUND (via the
end-section-name rule). -/
theorem claim6_counterexample :
    heading_level ⟨[.textRun "Notes".toList], some "HEADING_2"⟩ = 2 ∧
    datePrefixMatch (get_paragraph_text ⟨[.textRun "Notes".toList], some "HEADING_2"⟩) =
      false ∧
    stepElement (buildTodayDatePrefix ⟨2026, 2, 25⟩) (.checkingContent 2)
        (.paragraph ⟨[.textRun "Notes".toList], some "HEADING_2"⟩) = .done false := by
  exact ⟨by decide, by decide, by decide⟩

/-- Claim C6 (amended): in SEARCHING_TOPICS and CHECKING_CONTENT a heading
whose rank equals the recorded date level terminates the scan via the
section-boundary rule exactly when its text matches the date-prefix
pattern; a same-level heading with non-date text never terminates the scan
with NOT_FOUND in SEARCHING_TOPICS, and in CHECKING_CONTENT it does so only
when its text is a known end-section name.  For consecutive date headings
at the same level with nothing between them the verdict for today is
`no_topics` even though a Topics section with content follows under the
next date. -/
theorem claim6_same_level_boundary (datePref : List Char) (dl : Nat) (p : Paragraph) :
    (heading_level p < 99 → heading_level p = dl →
      datePrefixMatch (get_paragraph_text p) = true →
      stepElement datePref (.searchingTopics dl) (.paragraph p) = .done false ∧
      stepElement datePref (.checkingContent dl) (.paragraph p) = .done false) ∧
    (heading_level p = dl → datePrefixMatch (get_paragraph_text p) = false →
      stepElement datePref (.searchingTopics dl) (.paragraph p) ≠ .done false) ∧
    (heading_level p = dl → datePrefixMatch (get_paragraph_text p) = false →
      stepElement datePref (.checkingContent dl) (.paragraph p) = .done false →
      pyLower (get_paragraph_text p) ∈ END_SECTION_NAMES) ∧
    has_topics_for_today
      [DocElement.paragraph ⟨[.textRun "Feb 25, 2026 | Sync".toList], some "HEADING_2"⟩,
       DocElement.paragraph ⟨[.textRun "Feb 18, 2026 | Sync".toList], some "HEADING_2"⟩,
       DocElement.paragraph ⟨[.textRun "Topic:".toList], none⟩,
       DocElement.paragraph ⟨[.textRun "- Old".toList], none⟩] ⟨2026, 2, 25⟩ = false := by
  refine ⟨?_, ?_, ?_, by decide⟩
  · intro hlt he hd
    constructor
    · simp only [stepElement]
      rw [if_neg (by omega), if_pos ⟨hlt, he, hd⟩]
    · simp only [stepElement]
      rw [if_neg (by omega), if_pos ⟨hlt, he, hd⟩]
  · intro he hd
    simp only [stepElement]
    rw [if_neg (by omega), if_neg (by simp [hd])]
    split_ifs
    · simp
    · simp
  · intro he hd h
    simp only [stepElement] at h
    rw [if_neg (by omega), if_neg (by simp [hd])] at h
    by_cases hm : pyLower (get_paragraph_text p) ∈ END_SECTION_NAMES
    · exact hm
    · rw [if_neg hm] at h
      split_ifs at h
      simp_all

/-- Witness for claim C6: the same-level date heading `"Feb 18, 2026 |
Sync"` terminates SEARCHING_TOPICS with NOT_FOUND, while the same-level
heading `"Status"` does not. -/
theorem claim6_witness :
    stepElement (buildTodayDatePrefix ⟨2026, 2, 25⟩) (.searchingTopics 2)
        (.paragraph ⟨[.textRun "Feb 18, 2026 | Sync".toList], some "HEADING_2"⟩) =
      .done false ∧
    stepElement (buildTodayDatePrefix ⟨2026, 2, 25⟩) (.searchingTopics 2)
        (.paragraph ⟨[.textRun "Status".toList], some "HEADING_2"⟩) ≠ .done false := by
  constructor
  · exact ((claim6_same_level_boundary (buildTodayDatePrefix ⟨2026, 2, 25⟩) 2
      ⟨[.textRun "Feb 18, 2026 | Sync".toList], some "HEADING_2"⟩).1
      (by decide) (by decide) (by decide)).1
  · exact (claim6_same_level_boundary (buildTodayDatePrefix ⟨2026, 2, 25⟩) 2
      ⟨[.textRun "Status".toList], some "HEADING_2"⟩).2.1 (by decide) (by decide)

theorem scanLoop_take (datePref : List Char) (l : List DocElement) :
    ∀ n st, scanLoop datePref l n st =
      scanLoop datePref (l.take (MAX_CONTENT_ELEMENTS - n)) n st := by
  induction l with
  | nil => intro n st; simp [List.take_nil]
  | cons e rest ih =>
    intro n st
    by_cases h : MAX_CONTENT_ELEMENTS < n + 1
    · have h0 : MAX_CONTENT_ELEMENTS - n = 0 := by omega
      rw [h0]
      simp [scanLoop, h]
    · have h1 : MAX_CONTENT_ELEMENTS - n = (MAX_CONTENT_ELEMENTS - (n + 1)) + 1 := by
        omega
      rw [h1, List.take_succ_cons]
      cases hst : stepElement datePref st e with
      | done b => simp [scanLoop, h, hst]
      | next st2 =>
        simp only [scanLoop, if_neg h, hst]
        exact ih (n + 1) st2

/-- Claim C7: the Topic Presence Evaluator examines at most
`_MAX_CONTENT_ELEMENTS` (10,000) blocks — for every content list and date
the verdict equals the verdict on the first 10,000 elements, so blocks past
the bound never influence it (exceeding the bound stops the scan early and
the fall-through verdict is NOT_FOUND). -/
theorem claim7_content_bound (content : List DocElement) (today : PyDate) :
    has_topics_for_today content today =
      has_topics_for_today (content.take MAX_CONTENT_ELEMENTS) today := by
  unfold has_topics_for_today
  have h := scanLoop_take (buildTodayDatePrefix today) content 0 .searchingDate
  simpa using h

/-! ## docs_service.py: attachment resolution (`extract_doc_ids_from_event`) -/

/-- A Python value as it appears in the calendar API's event dictionaries:
a string, a list, a dictionary, `None`, or anything else. -/
inductive PyVal where
  | pstr (s : List Char)
  | plist (l : List PyVal)
  | pdict (d : List (String × PyVal))
  | pnone
  | pother

/-- Python `dict.get(key, default)` over the association-list model. -/
def pyGet (d : List (String × PyVal)) (k : String) (dflt : PyVal) : PyVal :=
  match d.find? (fun kv => kv.1 == k) with
  | some kv => kv.2
  | none => dflt

/-- `docs_service._DOC_MIME_TYPE` (line 24). -/
def DOC_MIME_TYPE : List Char := "application/vnd.google-apps.document".toList

/-- `docs_service._MAX_URL_LENGTH` (line 29). -/
def MAX_URL_LENGTH : Nat := 2048

/-- `docs_service._MAX_DOC_ID_LENGTH` (line 30). -/
def MAX_DOC_ID_LENGTH : Nat := 128

/-- A character of the capture class `[a-zA-Z0-9_-]` of
`_DOC_ID_PATTERN` (line 25). -/
def isDocIdChar (c : Char) : Bool :=
  ('a' ≤ c && c ≤ 'z') || ('A' ≤ c && c ≤ 'Z') || ('0' ≤ c && c ≤ '9') ||
    c == '_' || c == '-'

/-- Match the literal `/document/d/` at the head of `l`, returning the
remainder. -/
def stripDocLiteral (l : List Char) : Option (List Char) :=
  if "/document/d/".toList.isPrefixOf l then
    some (l.drop "/document/d/".toList.length)
  else none

/-- `_DOC_ID_PATTERN.search` (line 83): scan left to right for the first
position where `/document/d/` is followed by at least one capture-class
character; the captured group is the maximal run of such characters. -/
def docIdSearch : List Char → Option (List Char)
  | [] => none
  | c :: rest =>
    match stripDocLiteral (c :: rest) with
    | some after =>
      match after.takeWhile isDocIdChar with
      | [] => docIdSearch rest
      | d => some d
    | none => docIdSearch rest

/-- The `for attachment in attachments` loop of
`docs_service.extract_doc_ids_from_event` (lines 72-92). -/
def extractFromAttachments : List PyVal → List (List Char)
  | [] => []
  | a :: rest =>
    match a with
    | .pdict ad =>
      (match pyGet ad "mimeType" .pnone with
       | .pstr m =>
         if m = DOC_MIME_TYPE then
           match pyGet ad "fileUrl" (.pstr []) with
           | .pstr url =>
             if MAX_URL_LENGTH < url.length then extractFromAttachments rest
             else
               match docIdSearch url with
               | some did =>
                 if MAX_DOC_ID_LENGTH < did.length then extractFromAttachments rest
                 else did :: extractFromAttachments rest
               | none => extractFromAttachments rest
           | _ => extractFromAttachments rest
         else extractFromAttachments rest
       | _ => extractFromAttachments rest)
    | _ => extractFromAttachments rest

/-- `docs_service.extract_doc_ids_from_event` (lines 65-94).  The event is
a dictionary; a missing or non-list `attachments` value degrades to the
empty list. -/
def extract_doc_ids_from_event (event : List (String × PyVal)) : List (List Char) :=
  match pyGet event "attachments" (.plist []) with
  | .plist atts => extractFromAttachments atts
  | _ => []

/-! ## canceller.py: the cancellation decision policy -/

/-- The reason codes of `canceller.should_cancel_event` (lines 32-36). -/
inductive Reason where
  | no_doc
  | has_topics
  | no_topics
  | doc_error
deriving DecidableEq, Repr

/-- The `for doc_id in doc_ids` loop of `should_cancel_event`
(lines 47-71), against a document fetcher that either raises (`Except.error`,
the caught `HttpError`) or returns the document's content list.  Returns
the `(should_cancel, reason)` pair together with the list of document ids
whose fetch was attempted, in order. -/
def scanDocsLoop (fetch : List Char → Except Unit (List DocElement)) (today : PyDate) :
    List (List Char) → Bool → (Bool × Reason) × List (List Char)
  | [], anyRead => if anyRead then ((true, .no_topics), []) else ((false, .doc_error), [])
  | d :: rest, anyRead =>
    match fetch d with
    | .error _ =>
      let r := scanDocsLoop fetch today rest anyRead
      (r.1, d :: r.2)
    | .ok content =>
      if has_topics_for_today content today then ((false, .has_topics), [d])
      else
        let r := scanDocsLoop fetch today rest true
        (r.1, d :: r.2)

/-- `canceller.should_cancel_event` (lines 28-71), instrumented with the
list of attempted document fetches. -/
def should_cancel_event (event : List (String × PyVal))
    (fetch : List Char → Except Unit (List DocElement)) (today : PyDate) :
    (Bool × Reason) × List (List Char) :=
  let doc_ids := extract_doc_ids_from_event event
  if doc_ids = [] then ((false, .no_doc), [])
  else scanDocsLoop fetch today doc_ids false

/-! ## Claims about the cancellation decision policy (C1, C2) and the
attachment resolver (C10) -/

theorem scanDocsLoop_topics_at (fetch : List Char → Except Unit (List DocElement))
    (today : PyDate) :
    ∀ (ids : List (List Char)) (anyRead : Bool) (i : Nat) (hi : i < ids.length)
      (c : List DocElement),
      fetch (ids.get ⟨i, hi⟩) = .ok c → has_topics_for_today c today = true →
      (scanDocsLoop fetch today ids anyRead).1 = (false, .has_topics) ∧
      ∃ m, m ≤ i + 1 ∧ (scanDocsLoop fetch today ids anyRead).2 = ids.take m := by
  intro ids
  induction ids with
  | nil =>
    intro anyRead i hi
    simp at hi
  | cons d rest ih =>
    intro anyRead i hi c hf ht
    cases i with
    | zero =>
      have hd : fetch d = .ok c := hf
      refine ⟨?_, 1, by omega, ?_⟩
      · simp [scanDocsLoop, hd, ht]
      · simp [scanDocsLoop, hd, ht]
    | succ j =>
      have hj : j < rest.length := by simpa using hi
      have hf2 : fetch (rest.get ⟨j, hj⟩) = .ok c := hf
      cases hfd : fetch d with
      | error e =>
        have hrec := ih anyRead j hj c hf2 ht
        simp only [scanDocsLoop, hfd]
        refine ⟨hrec.1, ?_⟩
        obtain ⟨m, hm, he⟩ := hrec.2
        exact ⟨m + 1, by omega, by simp [he]⟩
      | ok content =>
        by_cases htc : has_topics_for_today content today = true
        · refine ⟨?_, 1, by omega, ?_⟩
          · simp [scanDocsLoop, hfd, htc]
          · simp [scanDocsLoop, hfd, htc]
        · have hrec := ih true j hj c hf2 ht
          simp only [scanDocsLoop, hfd, if_neg htc]
          refine ⟨hrec.1, ?_⟩
          obtain ⟨m, hm, he⟩ := hrec.2
          exact ⟨m + 1, by omega, by simp [he]⟩

/-- Claim C1: if the document at position `i` of the event's resolved
attachment list fetches successfully and yields `topics_present`, then
`should_cancel_event` returns the keep decision with reason `has_topics`,
regardless of the fetcher's behaviour on other documents, and the attempted
fetches are a prefix of the list stopping at or before position `i` — no
document after it is fetched. -/
theorem claim1_short_circuit (event : List (String × PyVal))
    (fetch : List Char → Except Unit (List DocElement)) (today : PyDate)
    (i : Nat) (hi : i < (extract_doc_ids_from_event event).length)
    (c : List DocElement)
    (hf : fetch ((extract_doc_ids_from_event event).get ⟨i, hi⟩) = .ok c)
    (ht : has_topics_for_today c today = true) :
    (should_cancel_event event fetch today).1 = (false, Reason.has_topics) ∧
    ∃ m, m ≤ i + 1 ∧ (should_cancel_event event fetch today).2 =
      (extract_doc_ids_from_event event).take m := by
  have hne : extract_doc_ids_from_event event ≠ [] := by
    intro h
    rw [h] at hi
    simp at hi
  unfold should_cancel_event
  rw [if_neg hne]
  exact scanDocsLoop_topics_at fetch today _ false i hi c hf ht

/-- A document whose content yields topics for 2026-02-25. -/
def sampleDocContent : List DocElement :=
  [.paragraph ⟨[.textRun "Feb 25, 2026 | Sync".toList], some "HEADING_2"⟩,
   .paragraph ⟨[.textRun "Topics".toList], some "HEADING_3"⟩,
   .paragraph ⟨[.textRun "- Discuss roadmap".toList], none⟩]

/-- An event carrying one Google-Doc attachment. -/
def sampleEvent : List (String × PyVal) :=
  [("attachments", .plist [.pdict
    [("mimeType", .pstr DOC_MIME_TYPE),
     ("fileUrl", .pstr "https://docs.google.com/document/d/abc123/edit".toList)]])]

/-- Witness for claim C1: one attached document whose fetch succeeds with
topic content for today. -/
theorem claim1_witness :
    (should_cancel_event sampleEvent (fun _ => .ok sampleDocContent) ⟨2026, 2, 25⟩).1 =
      (false, Reason.has_topics) ∧
    ∃ m, m ≤ 0 + 1 ∧
      (should_cancel_event sampleEvent (fun _ => .ok sampleDocContent) ⟨2026, 2, 25⟩).2 =
        (extract_doc_ids_from_event sampleEvent).take m := by
  exact claim1_short_circuit sampleEvent (fun _ => .ok sampleDocContent) ⟨2026, 2, 25⟩
    0 (by decide) sampleDocContent rfl (by decide)

theorem scanDocsLoop_all_error (fetch : List Char → Except Unit (List DocElement))
    (today : PyDate) :
    ∀ ids : List (List Char), (∀ did ∈ ids, fetch did = .error ()) →
      scanDocsLoop fetch today ids false = ((false, .doc_error), ids) := by
  intro ids
  induction ids with
  | nil => intro _; rfl
  | cons d rest ih =>
    intro h
    have hd : fetch d = .error () := h d (by simp)
    have hrest := ih fun did hm => h did (by simp [hm])
    simp only [scanDocsLoop, hd, hrest]

/-- Claim C2: a fetch failure on one document leaves the event's evaluation
to continue with the remaining documents (the result is the result on the
rest, with the failed document recorded among the attempted fetches), and
when the resolved attachment list is non-empty and every fetch fails,
`should_cancel_event` returns the keep decision with reason `doc_error` —
never a cancel decision. -/
theorem claim2_fail_safe (event : List (String × PyVal))
    (fetch : List Char → Except Unit (List DocElement)) (today : PyDate) :
    (∀ (d : List Char) (rest : List (List Char)) (anyRead : Bool),
      fetch d = .error () →
      scanDocsLoop fetch today (d :: rest) anyRead =
        ((scanDocsLoop fetch today rest anyRead).1,
         d :: (scanDocsLoop fetch today rest anyRead).2)) ∧
    (extract_doc_ids_from_event event ≠ [] →
      (∀ did ∈ extract_doc_ids_from_event event, fetch did = .error ()) →
      should_cancel_event event fetch today =
        ((false, Reason.doc_error), extract_doc_ids_from_event event)) := by
  constructor
  · intro d rest anyRead hd
    simp only [scanDocsLoop, hd]
  · intro hne hall
    unfold should_cancel_event
    rw [if_neg hne]
    exact scanDocsLoop_all_error fetch today _ hall

/-- Witness for claim C2: the sample event against a fetcher that always
fails. -/
theorem claim2_witness :
    scanDocsLoop (fun _ => .error ()) ⟨2026, 2, 25⟩ ("x".toList :: []) false =
      ((scanDocsLoop (fun _ => .error ()) ⟨2026, 2, 25⟩ [] false).1,
       "x".toList :: (scanDocsLoop (fun _ => .error ()) ⟨2026, 2, 25⟩ [] false).2) ∧
    should_cancel_event sampleEvent (fun _ => .error ()) ⟨2026, 2, 25⟩ =
      ((false, Reason.doc_error), extract_doc_ids_from_event sampleEvent) := by
  constructor
  · exact (claim2_fail_safe sampleEvent (fun _ => .error ()) ⟨2026, 2, 25⟩).1
      "x".toList [] false rfl
  · exact (claim2_fail_safe sampleEvent (fun _ => .error ()) ⟨2026, 2, 25⟩).2
      (by decide) (fun _ _ => rfl)

/-- Claim C10: `extract_doc_ids_from_event` is total over its interface —
it returns the empty list when the `attachments` key is missing or its
value is not a list, and attachment entries that are not dictionaries are
skipped without contributing anything; no input raises (the embedding is a
total function by construction). -/
theorem claim10_extract_total (event : List (String × PyVal)) :
    (List.find? (fun kv => kv.1 == "attachments") event = none →
      extract_doc_ids_from_event event = []) ∧
    (∀ kv, List.find? (fun kv => kv.1 == "attachments") event = some kv →
      (∀ l, kv.2 ≠ PyVal.plist l) → extract_doc_ids_from_event event = []) ∧
    (∀ (a : PyVal) (rest : List PyVal), (∀ d, a ≠ PyVal.pdict d) →
      extractFromAttachments (a :: rest) = extractFromAttachments rest) := by
  refine ⟨?_, ?_, ?_⟩
  · intro h
    unfold extract_doc_ids_from_event pyGet
    rw [h]
    rfl
  · intro kv h hnl
    obtain ⟨k, v⟩ := kv
    unfold extract_doc_ids_from_event pyGet
    rw [h]
    cases v with
    | plist l => exact absurd rfl (hnl l)
    | pstr s => rfl
    | pdict d => rfl
    | pnone => rfl
    | pother => rfl
  · intro a rest h
    cases a with
    | pdict d => exact absurd rfl (h d)
    | pstr s => rfl
    | plist l => rfl
    | pnone => rfl
    | pother => rfl

/-- Witness for claim C10: an event without attachments, an event whose
`attachments` value is a string, and a non-dictionary attachment entry. -/
theorem claim10_witness :
    extract_doc_ids_from_event [("summary", PyVal.pstr "Sync".toList)] = [] ∧
    extract_doc_ids_from_event [("attachments", PyVal.pstr "x".toList)] = [] ∧
    extractFromAttachments [PyVal.pnone] = extractFromAttachments [] := by
  refine ⟨?_, ?_, ?_⟩
  · exact (claim10_extract_total [("summary", PyVal.pstr "Sync".toList)]).1 rfl
  · exact (claim10_extract_total [("attachments", PyVal.pstr "x".toList)]).2.1
      ("attachments", PyVal.pstr "x".toList) rfl (fun l h => PyVal.noConfusion h)
  · exact (claim10_extract_total []).2.2 PyVal.pnone []
      (fun d h => PyVal.noConfusion h)
